import Mathlib

/-!
Verification of the StockControl point-in-time weighted-average inventory
costing engine and of its supporting date and filter utilities.

Strings are embedded as lists of characters.  Decimal quantities and
currency values are embedded as rationals.  Occurrence dates inside the
ledger are embedded as natural numbers ordered like zero-padded ISO date
strings (for example 20230105 stands for 2023-01-05).
-/

namespace StockControl

/-- The character list that the JavaScript value undefined turns into when
interpolated into a template string. -/
def undefChars : List Char := ['u', 'n', 'd', 'e', 'f', 'i', 'n', 'e', 'd']

/-- Splits a character list on every occurrence of the separator, mirroring
the JavaScript String.prototype.split with a one-character separator:
splitting the empty string yields one empty component. -/
def splitOnChar (sep : Char) : List Char → List (List Char)
  | [] => [[]]
  | c :: cs =>
    match splitOnChar sep cs with
    | [] => if c = sep then [[], []] else [[c]]
    | h :: t => if c = sep then [] :: h :: t else (c :: h) :: t

/-- Left pad with the zero character up to length two, mirroring the
JavaScript padStart(2, zero) calls in the date utilities. -/
def padStart2 (s : List Char) : List Char :=
  if s.length < 2 then List.replicate (2 - s.length) '0' ++ s else s

/-- Membership test of one character, mirroring the JavaScript
String.prototype.includes calls with a one-character argument. -/
def strHasChar (s : List Char) (c : Char) : Bool := decide (c ∈ s)

/-- Numeric value of a decimal digit character. -/
def digitVal (c : Char) : Nat := c.toNat - 48

/-- Value of a list of decimal digit characters, mirroring the JavaScript
Number conversion on all-digit strings. -/
def digitsToNat (s : List Char) : Nat :=
  s.foldl (fun a c => 10 * a + digitVal c) 0

/-- Leap-year rule of the proleptic Gregorian calendar used by the
JavaScript Date object. -/
def isLeapYear (y : Nat) : Bool :=
  (y % 4 == 0) && ((y % 100 != 0) || (y % 400 == 0))

/-- Number of days in a month of the Gregorian calendar. -/
def daysInMonth (y m : Nat) : Nat :=
  if m = 2 then (if isLeapYear y then 29 else 28)
  else if m = 4 ∨ m = 6 ∨ m = 9 ∨ m = 11 then 30
  else 31

/-- Component readback (getFullYear, getMonth plus one, getDate) of the
JavaScript construction new Date(y, m - 1, d), modelled on the domain
1 ≤ m ≤ 12, 1 ≤ d ≤ 31, which is the only domain on which the validators
below consult it: an overflowing day rolls into the following month, and at
most one roll can happen there because every month has at least 28 days
while month 12 has 31 days, so a day of at most 31 never rolls past
December. -/
def jsDateComponents (y m d : Nat) : Nat × Nat × Nat :=
  if d ≤ daysInMonth y m then (y, m, d)
  else (y, m + 1, d - daysInMonth y m)

/-- Embedding of isValidBrazilianDate from
src/stock_control_frontend/src/utils/date.ts: the regular expression there
demands the exact shape DD/MM/YYYY of decimal digits, then day, month and
year pass basic range checks, and finally the JavaScript Date roundtrip
must preserve all three components. -/
def isValidBrazilianDate (s : List Char) : Bool :=
  match s with
  | [d1, d2, s1, m1, m2, s2, y1, y2, y3, y4] =>
    (s1 == '/') && (s2 == '/') &&
    d1.isDigit && d2.isDigit && m1.isDigit && m2.isDigit &&
    y1.isDigit && y2.isDigit && y3.isDigit && y4.isDigit &&
    (let d := digitsToNat [d1, d2]
     let m := digitsToNat [m1, m2]
     let y := digitsToNat [y1, y2, y3, y4]
     decide (1 ≤ d) && decide (d ≤ 31) &&
     decide (1 ≤ m) && decide (m ≤ 12) &&
     decide (1900 ≤ y) && decide (y ≤ 2100) &&
     decide (jsDateComponents y m d = (y, m, d)))
  | _ => false

/-- Embedding of isValidISODate from date.ts: the exact shape YYYY-MM-DD of
decimal digits, the same range checks as the Brazilian validator, and the
JavaScript Date roundtrip preserving the components. -/
def isValidISODate (s : List Char) : Bool :=
  match s with
  | [y1, y2, y3, y4, s1, m1, m2, s2, d1, d2] =>
    (s1 == '-') && (s2 == '-') &&
    y1.isDigit && y2.isDigit && y3.isDigit && y4.isDigit &&
    m1.isDigit && m2.isDigit && d1.isDigit && d2.isDigit &&
    (let d := digitsToNat [d1, d2]
     let m := digitsToNat [m1, m2]
     let y := digitsToNat [y1, y2, y3, y4]
     decide (1 ≤ d) && decide (d ≤ 31) &&
     decide (1 ≤ m) && decide (m ≤ 12) &&
     decide (1900 ≤ y) && decide (y ≤ 2100) &&
     decide (jsDateComponents y m d = (y, m, d)))
  | _ => false

/-- Embedding of formatDateToBrazilian from date.ts: a string already
containing a slash is returned unchanged; otherwise the string is split on
dashes, the first three components are destructured as year, month, day,
and reassembled as day/month/year.  A missing component interpolates like
the JavaScript undefined value. -/
def formatDateToBrazilian (s : List Char) : List Char :=
  if strHasChar s '/' then s
  else
    match splitOnChar '-' s with
    | y :: m :: d :: _ => d ++ '/' :: m ++ '/' :: y
    | [y, m] => undefChars ++ '/' :: m ++ '/' :: y
    | [y] => undefChars ++ '/' :: undefChars ++ '/' :: y
    | [] => s

/-- Embedding of formatBrazilianDateToISO from date.ts: a string already
containing a dash is returned unchanged; otherwise the string is split on
slashes, destructured as day, month, year, and reassembled as
year-month-day with month and day left-padded to two characters.  When the
split yields a single component, the month is the JavaScript undefined
value, so calling padStart on it throws and the catch clause returns the
original string. -/
def formatBrazilianDateToISO (s : List Char) : List Char :=
  if strHasChar s '-' then s
  else
    match splitOnChar '/' s with
    | d :: m :: y :: _ => y ++ '-' :: padStart2 m ++ '-' :: padStart2 d
    | [d, m] => undefChars ++ '-' :: padStart2 m ++ '-' :: padStart2 d
    | [_] => s
    | [] => s

/-- Embedding of safeFormatBrazilianDateToISO from date.ts: the empty
string (falsy in JavaScript) is rejected; a string containing a dash is
accepted unchanged when it is a valid ISO date; a string containing a slash
is converted when it is a valid Brazilian date; everything else yields
null. -/
def safeFormatBrazilianDateToISO (s : List Char) : Option (List Char) :=
  if s = [] then none
  else if strHasChar s '-' && isValidISODate s then some s
  else if strHasChar s '/' && isValidBrazilianDate s then some (formatBrazilianDateToISO s)
  else none

/-- ASCII lowercasing, mirroring the toLowerCase calls on the strings the
application handles. -/
def lowerStr (s : List Char) : List Char := s.map Char.toLower

/-- Embedding of the JavaScript String.prototype.includes: contiguous
substring containment. -/
def strIncludes (hay needle : List Char) : Bool := decide (needle <:+: hay)

/-- Transaction variant of the ledger data model. -/
inductive Variant
  | Entry
  | Exit
  deriving DecidableEq

/-- Modelled from the spec: the Transaction record of the append-only
Ledger Store (the backend data model is not present under src/).  Sequence
number, owning item SKU, positive decimal quantity, non-negative decimal
unit value, occurrence date; an Entry additionally carries a supplier
reference and an external document reference, an Exit carries neither. -/
structure Transaction where
  seq : Nat
  sku : List Char
  quantity : Rat
  unitValue : Rat
  date : Nat
  variant : Variant
  supplier : Option Nat
  docRef : Option (List Char)
  deriving DecidableEq

/-- Modelled from the spec: the Item record of the Item Registry (the
backend data model is not present under src/). -/
structure Item where
  sku : List Char
  description : List Char
  unitOfMeasure : List Char
  active : Bool
  deriving DecidableEq

/-- Modelled from the spec: the filter criteria accepted by the engine. -/
structure Filters where
  sku : Option (List Char)
  descriptionSubstring : Option (List Char)
  onlyWithStock : Bool
  onlyActive : Bool
  deriving DecidableEq

/-- Modelled from the spec: the computed ValuationSnapshot, one per
(item, as-of date) pair.  The intermediate net value is carried alongside
the outbound fields so that the costing identities can be stated. -/
structure ValuationSnapshot where
  sku : List Char
  description : List Char
  unitOfMeasure : List Char
  active : Bool
  currentQty : Rat
  netValue : Rat
  averageCost : Rat
  totalValuation : Rat
  lastEntryCost : Rat
  deriving DecidableEq

/-- Modelled from the spec: the store query for the transactions of one
item and variant with occurrence date less than or equal to the as-of
date, inclusive (the backend Valuation Engine is not present under
src/). -/
def qualifying (ledger : List Transaction) (sku : List Char) (v : Variant)
    (asOf : Nat) : List Transaction :=
  ledger.filter fun t => decide (t.sku = sku ∧ t.variant = v ∧ t.date ≤ asOf)

/-- Modelled from the spec: aggregation step 1, the entry quantity sum. -/
def entryQty (ledger : List Transaction) (sku : List Char) (asOf : Nat) : Rat :=
  ((qualifying ledger sku .Entry asOf).map (fun t => t.quantity)).sum

/-- Modelled from the spec: aggregation step 1, the entry value sum. -/
def entryValue (ledger : List Transaction) (sku : List Char) (asOf : Nat) : Rat :=
  ((qualifying ledger sku .Entry asOf).map (fun t => t.quantity * t.unitValue)).sum

/-- Modelled from the spec: aggregation step 2, the exit quantity sum. -/
def exitQty (ledger : List Transaction) (sku : List Char) (asOf : Nat) : Rat :=
  ((qualifying ledger sku .Exit asOf).map (fun t => t.quantity)).sum

/-- Modelled from the spec: aggregation step 2, the exit value sum. -/
def exitValue (ledger : List Transaction) (sku : List Char) (asOf : Nat) : Rat :=
  ((qualifying ledger sku .Exit asOf).map (fun t => t.quantity * t.unitValue)).sum

/-- Modelled from the spec: the store's ability to fetch the
maximum-sequence-number transaction matching a filter, as a fold over the
matching list. -/
def pickMaxSeq : List Transaction → Option Transaction
  | [] => none
  | t :: ts =>
    match pickMaxSeq ts with
    | none => some t
    | some u => if u.seq < t.seq then some t else some u

/-- Modelled from the spec: aggregation step 7, the unit value of the
qualifying Entry with the largest sequence number, or 0 when no Entry
qualifies. -/
def lastEntryCost (ledger : List Transaction) (sku : List Char) (asOf : Nat) : Rat :=
  match pickMaxSeq (qualifying ledger sku .Entry asOf) with
  | none => 0
  | some t => t.unitValue

/-- Modelled from the spec: steps 1 to 7 of the per-candidate algorithm,
assembled into one ValuationSnapshot.  The average cost is net value over
current quantity guarded by the exact-zero test, and the total valuation
is computed via the multiplication form. -/
def mkSnapshot (ledger : List Transaction) (it : Item) (asOf : Nat) : ValuationSnapshot :=
  let q := entryQty ledger it.sku asOf - exitQty ledger it.sku asOf
  let nv := entryValue ledger it.sku asOf - exitValue ledger it.sku asOf
  let avg := if q = 0 then 0 else nv / q
  { sku := it.sku
    description := it.description
    unitOfMeasure := it.unitOfMeasure
    active := it.active
    currentQty := q
    netValue := nv
    averageCost := avg
    totalValuation := q * avg
    lastEntryCost := lastEntryCost ledger it.sku asOf }

/-- Modelled from the spec: candidate selection over the Item Registry.
The sku and description filters are case-insensitive substring filters
(substring containment is the documented behavior, matching the useTable
filter implementation below), and onlyActive restricts candidates to items
with the active flag set. -/
def itemMatches (f : Filters) (it : Item) : Bool :=
  (match f.sku with
   | none => true
   | some s => strIncludes (lowerStr it.sku) (lowerStr s)) &&
  (match f.descriptionSubstring with
   | none => true
   | some s => strIncludes (lowerStr it.description) (lowerStr s)) &&
  (!f.onlyActive || it.active)

/-- Modelled from the spec: the candidate items of one engine call. -/
def candidates (reg : List Item) (f : Filters) : List Item :=
  reg.filter (itemMatches f)

/-- Modelled from the spec: computeSnapshots, the Valuation Engine
contract (the backend endpoint is not present under src/).  Every
candidate gets a snapshot aggregated from the ledger, and onlyWithStock is
applied afterwards as a post-aggregation filter dropping exactly the
snapshots whose computed current quantity equals zero. -/
def computeSnapshots (asOf : Nat) (f : Filters) (reg : List Item)
    (ledger : List Transaction) : List ValuationSnapshot :=
  let snaps := (candidates reg f).map (fun it => mkSnapshot ledger it asOf)
  if f.onlyWithStock then snaps.filter (fun s => decide (s.currentQty ≠ 0)) else snaps

/-- Numeric key of a well-formed zero-padded ISO date string: year times
10000 plus month times 100 plus day, which orders exactly like the
string. -/
def isoKey (s : List Char) : Nat :=
  match s with
  | [y1, y2, y3, y4, _, m1, m2, _, d1, d2] =>
    10000 * digitsToNat [y1, y2, y3, y4] + 100 * digitsToNat [m1, m2] + digitsToNat [d1, d2]
  | _ => 0

/-- The descriptive rejection returned for a malformed as-of date. -/
def invalidDateMsg : List Char := ("Invalid asOfDate: not a calendar date").toList

/-- Modelled from the spec: the single inbound query operation (the
backend endpoint is not present under src/).  A supplied as-of date is
validated with safeFormatBrazilianDateToISO, the repository's date
validator, before anything else: a malformed date is rejected with a
descriptive input-validation error and the stores are never consulted.  An
omitted as-of date defaults to the current date at call time, passed here
explicitly as the parameter now since the engine holds no ambient
state. -/
def queryStocks (asOfDate : Option (List Char)) (now : Nat) (f : Filters)
    (reg : List Item) (ledger : List Transaction) :
    Except (List Char) (List ValuationSnapshot) :=
  match asOfDate with
  | none => .ok (computeSnapshots now f reg ledger)
  | some s =>
    match safeFormatBrazilianDateToISO s with
    | none => .error invalidDateMsg
    | some iso => .ok (computeSnapshots (isoKey iso) f reg ledger)

namespace StockService

/-- Embedding of the error handling of StockService.getStockItems
(src/unnamed/part_005): the awaited store response is returned on success;
a failure is logged and rethrown unchanged by the catch clause, with no
internal retry and no default substituted. -/
def getStockItems {E R : Type} (response : Except E R) : Except E R :=
  match response with
  | .ok d => .ok d
  | .error e => .error e

end StockService

/-- One row of the stock-cost listing consumed by the transaction form. -/
structure StockCostRow where
  unitCost : Rat
  lastEntryCost : Rat
  deriving DecidableEq

/-- Embedding of getAverageCost from
src/stock_control_frontend/src/composables/useTransactionForm.ts: the
dedicated average-cost endpoint is tried first; when that call fails (the
inner catch only logs) or its payload lacks the custoMedio field, the
stock-cost service is consulted and the unitCost of its first result row
is returned; an empty result list returns 0, and a failure of the second
call reaches the outer catch, which also returns the number 0 rather than
a propagated failure. -/
def getAverageCost (apiResult : Except Unit (Option Rat))
    (serviceResult : Except Unit (List StockCostRow)) : Rat :=
  match apiResult with
  | .ok (some c) => c
  | _ =>
    match serviceResult with
    | .ok (r :: _) => r.unitCost
    | .ok [] => 0
    | .error _ => 0

/-- A table row as the useTable composable sees it: an association list
from field names to the string rendering of the field value.  A field
absent from the row renders like the JavaScript undefined value. -/
def getField (row : List (List Char × List Char)) (field : List Char) : List Char :=
  match row.lookup field with
  | some v => v
  | none => undefChars

/-- Embedding of applyFilters from the useTable composable (second
compilation unit of
src/stock_control_frontend/src/composables/useTransactionForm.ts): a row
is kept when every filter entry is either empty (falsy in JavaScript) or
occurs case-insensitively as a substring of the string value of the
corresponding field. -/
def applyFilters (filters : List (List Char × List Char))
    (data : List (List (List Char × List Char))) : List (List (List Char × List Char)) :=
  data.filter fun row =>
    filters.all fun p =>
      p.2.isEmpty || strIncludes (lowerStr (getField row p.1)) (lowerStr p.2)

/-- Every snapshot in a computeSnapshots result is the aggregation of the
ledger for some candidate item. -/
theorem mem_computeSnapshots {asOf : Nat} {f : Filters} {reg : List Item}
    {ledger : List Transaction} {s : ValuationSnapshot}
    (hs : s ∈ computeSnapshots asOf f reg ledger) :
    ∃ it ∈ candidates reg f, s = mkSnapshot ledger it asOf := by
  simp only [computeSnapshots] at hs
  cases hb : f.onlyWithStock with
  | true =>
    rw [hb, if_pos rfl] at hs
    obtain ⟨⟨it, hit, rfl⟩, -⟩ := List.mem_filter.mp hs |>.imp_left List.mem_map.mp
    exact ⟨it, hit, rfl⟩
  | false =>
    rw [hb] at hs
    simp only [Bool.false_eq_true, if_false, List.mem_map] at hs
    obtain ⟨it, hit, rfl⟩ := hs
    exact ⟨it, hit, rfl⟩

/-- Fixture: an item whose ledger nets to quantity zero with nonzero
residual value. -/
def itemW : Item := ⟨("W1").toList, ("widget").toList, ("kg").toList, true⟩

/-- Fixture registry holding only itemW. -/
def regW : List Item := [itemW]

/-- Fixture: an entry of 2 units at 5 for itemW. -/
def entryW : Transaction := ⟨1, ("W1").toList, 2, 5, 10, .Entry, some 7, some (("NF1").toList)⟩

/-- Fixture: an exit of 2 units at 7 for itemW. -/
def exitW : Transaction := ⟨2, ("W1").toList, 2, 7, 11, .Exit, none, none⟩

/-- Fixture ledger for itemW: an entry of 2 units at 5 and an exit of
2 units at 7, so the net quantity is zero while the net value is -4. -/
def ledgerW : List Transaction := [entryW, exitW]

/-- Fixture: the empty filter set. -/
def fNone : Filters := ⟨none, none, false, false⟩

/-- C1: in every computeSnapshots result, a snapshot whose computed
current quantity equals exactly zero has average cost 0 regardless of its
net value, and a snapshot with nonzero current quantity has average cost
equal to its net value divided by its current quantity. -/
theorem averageCost_zero_guard (asOf : Nat) (f : Filters) (reg : List Item)
    (ledger : List Transaction) (s : ValuationSnapshot)
    (hs : s ∈ computeSnapshots asOf f reg ledger) :
    (s.currentQty = 0 → s.averageCost = 0) ∧
    (s.currentQty ≠ 0 → s.averageCost = s.netValue / s.currentQty) := by
  obtain ⟨it, -, rfl⟩ := mem_computeSnapshots hs
  constructor
  · intro h
    simp only [mkSnapshot] at h ⊢
    rw [if_pos h]
  · intro h
    simp only [mkSnapshot] at h ⊢
    rw [if_neg h]

/-- Witness for C1 at a concrete anomalous ledger: itemW has current
quantity zero but net value -4, and its reported average cost is 0. -/
theorem averageCost_zero_guard_witness :
    mkSnapshot ledgerW itemW 20 ∈ computeSnapshots 20 fNone regW ledgerW ∧
    (mkSnapshot ledgerW itemW 20).currentQty = 0 ∧
    (mkSnapshot ledgerW itemW 20).netValue = -4 ∧
    (mkSnapshot ledgerW itemW 20).averageCost = 0 := by
  have hm : mkSnapshot ledgerW itemW 20 ∈ computeSnapshots 20 fNone regW ledgerW := by
    simp [computeSnapshots, candidates, itemMatches, fNone, regW]
  have hq : (mkSnapshot ledgerW itemW 20).currentQty = 0 := by
    norm_num +decide [mkSnapshot, entryQty, exitQty, qualifying, ledgerW, entryW, exitW, itemW, List.filter]
  have hnv : (mkSnapshot ledgerW itemW 20).netValue = -4 := by
    norm_num +decide [mkSnapshot, entryValue, exitValue, qualifying, ledgerW, entryW, exitW, itemW, List.filter]
  exact ⟨hm, hq, hnv, (averageCost_zero_guard 20 fNone regW ledgerW _ hm).1 hq⟩

/-- C2: every snapshot's current quantity is the sum of the quantities of
the item's Entry transactions dated at or before the as-of date minus the
sum of the quantities of its Exit transactions dated at or before it, and
the date comparison is inclusive: a ledger transaction of the item dated
exactly asOfDate belongs to the qualifying aggregation of its variant. -/
theorem currentQty_inclusive_aggregation (asOf : Nat) (f : Filters)
    (reg : List Item) (ledger : List Transaction) (s : ValuationSnapshot)
    (hs : s ∈ computeSnapshots asOf f reg ledger) :
    s.currentQty =
      ((ledger.filter fun t => decide (t.sku = s.sku ∧ t.variant = .Entry ∧ t.date ≤ asOf)).map
        (fun t => t.quantity)).sum -
      ((ledger.filter fun t => decide (t.sku = s.sku ∧ t.variant = .Exit ∧ t.date ≤ asOf)).map
        (fun t => t.quantity)).sum ∧
    (∀ t ∈ ledger, t.sku = s.sku → t.date = asOf →
      t ∈ qualifying ledger s.sku t.variant asOf) := by
  obtain ⟨it, -, rfl⟩ := mem_computeSnapshots hs
  constructor
  · rfl
  · intro t ht hsku hdate
    simp [qualifying, List.mem_filter, ht, hsku, hdate]

/-- Witness for C2 at a concrete ledger: the exit transaction dated
exactly day 11 is included in the day-11 aggregation for itemW, and the
day-11 current quantity nets the included entry against it. -/
theorem currentQty_inclusive_aggregation_witness :
    exitW ∈ qualifying ledgerW (mkSnapshot ledgerW itemW 11).sku exitW.variant 11 ∧
    (mkSnapshot ledgerW itemW 11).currentQty =
      ((ledgerW.filter fun t =>
        decide (t.sku = (mkSnapshot ledgerW itemW 11).sku ∧ t.variant = .Entry ∧ t.date ≤ 11)).map
        (fun t => t.quantity)).sum -
      ((ledgerW.filter fun t =>
        decide (t.sku = (mkSnapshot ledgerW itemW 11).sku ∧ t.variant = .Exit ∧ t.date ≤ 11)).map
        (fun t => t.quantity)).sum := by
  have hm : mkSnapshot ledgerW itemW 11 ∈ computeSnapshots 11 fNone regW ledgerW := by
    simp [computeSnapshots, candidates, itemMatches, fNone, regW]
  have h := currentQty_inclusive_aggregation 11 fNone regW ledgerW _ hm
  refine ⟨h.2 exitW ?_ ?_ ?_, h.1⟩
  · simp [ledgerW]
  · rfl
  · rfl

/-- C4: turning onlyWithStock on removes from the computeSnapshots result
exactly the snapshots whose computed current quantity equals zero and no
others: the run with the flag set equals the run with the flag cleared
filtered after aggregation on nonzero current quantity, over the same
candidate set. -/
theorem onlyWithStock_post_aggregation (asOf : Nat) (f : Filters)
    (reg : List Item) (ledger : List Transaction) :
    computeSnapshots asOf { f with onlyWithStock := true } reg ledger =
      (computeSnapshots asOf { f with onlyWithStock := false } reg ledger).filter
        (fun s => decide (s.currentQty ≠ 0)) := by
  cases f with
  | mk sku desc ows oa => rfl

/-- Witness for C4 at the fixture state: the flag-set run equals the
post-aggregation filtering of the flag-clear run. -/
theorem onlyWithStock_post_aggregation_witness :
    computeSnapshots 20 { fNone with onlyWithStock := true } regW ledgerW =
      (computeSnapshots 20 { fNone with onlyWithStock := false } regW ledgerW).filter
        (fun s => decide (s.currentQty ≠ 0)) :=
  onlyWithStock_post_aggregation 20 fNone regW ledgerW

/-- C7: computeSnapshots is deterministic: two calls with identical as-of
date, identical filters, and identical registry and ledger state return
identical snapshot sequences. -/
theorem computeSnapshots_deterministic (asOf asOf2 : Nat) (f f2 : Filters)
    (reg reg2 : List Item) (ledger ledger2 : List Transaction)
    (h1 : asOf = asOf2) (h2 : f = f2) (h3 : reg = reg2) (h4 : ledger = ledger2) :
    computeSnapshots asOf f reg ledger = computeSnapshots asOf2 f2 reg2 ledger2 := by
  subst h1; subst h2; subst h3; subst h4; rfl

/-- Witness for C7 at a concrete state: two identical calls over the
fixture registry and ledger agree. -/
theorem computeSnapshots_deterministic_witness :
    computeSnapshots 20 fNone regW ledgerW = computeSnapshots 20 fNone regW ledgerW :=
  computeSnapshots_deterministic 20 20 fNone fNone regW regW ledgerW ledgerW rfl rfl rfl rfl

/-- Fixture: the item of the B002 anomaly scenario. -/
def itemB002 : Item := ⟨("B002").toList, ("anomalous item").toList, ("un").toList, true⟩

/-- Fixture: the only movement of item B002, an exit of 3 units at unit
value 5 dated 2023-01-05. -/
def exitB002 : Transaction := ⟨1, ("B002").toList, 3, 5, 20230105, .Exit, none, none⟩

/-- Fixture ledger of the B002 scenario. -/
def ledgerB002 : List Transaction := [exitB002]

/-- C5: an item whose exits exceed its entries is not special-cased: with
only Exit(seq 1, qty 3, unitValue 5, date 2023-01-05) on the ledger, the
snapshot as of any date on or after 2023-01-05 has current quantity -3,
net value -15, average cost 5 (the same division formula), total valuation
-15 and last entry cost 0. -/
theorem negative_qty_not_special_cased (d : Nat) (hd : 20230105 ≤ d) :
    (mkSnapshot ledgerB002 itemB002 d).currentQty = -3 ∧
    (mkSnapshot ledgerB002 itemB002 d).netValue = -15 ∧
    (mkSnapshot ledgerB002 itemB002 d).averageCost = 5 ∧
    (mkSnapshot ledgerB002 itemB002 d).totalValuation = -15 ∧
    (mkSnapshot ledgerB002 itemB002 d).lastEntryCost = 0 := by
  have hqE : qualifying ledgerB002 itemB002.sku .Entry d = [] := by
    simp +decide [qualifying, ledgerB002, exitB002, itemB002, List.filter]
  have hqX : qualifying ledgerB002 itemB002.sku .Exit d = [exitB002] := by
    simp +decide [qualifying, ledgerB002, exitB002, itemB002, List.filter, hd]
  have hq : (mkSnapshot ledgerB002 itemB002 d).currentQty = -3 := by
    simp [mkSnapshot, entryQty, exitQty, hqE, hqX, exitB002]
  have hnv : (mkSnapshot ledgerB002 itemB002 d).netValue = -15 := by
    simp [mkSnapshot, entryValue, exitValue, hqE, hqX, exitB002]
    norm_num
  have havg : (mkSnapshot ledgerB002 itemB002 d).averageCost = 5 := by
    simp [mkSnapshot, entryQty, exitQty, entryValue, exitValue, hqE, hqX, exitB002]
  have htv : (mkSnapshot ledgerB002 itemB002 d).totalValuation = -15 := by
    simp [mkSnapshot, entryQty, exitQty, entryValue, exitValue, hqE, hqX, exitB002]
    norm_num
  have hle : (mkSnapshot ledgerB002 itemB002 d).lastEntryCost = 0 := by
    simp [mkSnapshot, lastEntryCost, hqE, pickMaxSeq]
  exact ⟨hq, hnv, havg, htv, hle⟩

/-- Witness for C5 exactly at the boundary date 2023-01-05. -/
theorem negative_qty_not_special_cased_witness :
    (mkSnapshot ledgerB002 itemB002 20230105).currentQty = -3 ∧
    (mkSnapshot ledgerB002 itemB002 20230105).netValue = -15 ∧
    (mkSnapshot ledgerB002 itemB002 20230105).averageCost = 5 ∧
    (mkSnapshot ledgerB002 itemB002 20230105).totalValuation = -15 ∧
    (mkSnapshot ledgerB002 itemB002 20230105).lastEntryCost = 0 :=
  negative_qty_not_special_cased 20230105 (Nat.le_refl 20230105)

/-- pickMaxSeq returns none only on the empty list. -/
theorem pickMaxSeq_eq_none : ∀ {l : List Transaction},
    pickMaxSeq l = none → l = [] := by
  intro l h
  cases l with
  | nil => rfl
  | cons t ts =>
    exfalso
    simp only [pickMaxSeq] at h
    cases hp : pickMaxSeq ts with
    | none =>
      simp only [hp] at h
      cases h
    | some v =>
      simp only [hp] at h
      by_cases hc : v.seq < t.seq
      · rw [if_pos hc] at h; cases h
      · rw [if_neg hc] at h; cases h

/-- A transaction picked by pickMaxSeq belongs to the list. -/
theorem pickMaxSeq_mem : ∀ {l : List Transaction} {u : Transaction},
    pickMaxSeq l = some u → u ∈ l := by
  intro l
  induction l with
  | nil => intro u h; simp [pickMaxSeq] at h
  | cons t ts ih =>
    intro u h
    simp only [pickMaxSeq] at h
    cases hp : pickMaxSeq ts with
    | none =>
      simp only [hp] at h
      cases h
      exact List.mem_cons_self t ts
    | some v =>
      simp only [hp] at h
      by_cases hc : v.seq < t.seq
      · rw [if_pos hc] at h
        cases h
        exact List.mem_cons_self t ts
      · rw [if_neg hc] at h
        cases h
        exact List.mem_cons_of_mem t (ih hp)

/-- The transaction picked by pickMaxSeq has the largest sequence number
in the list. -/
theorem pickMaxSeq_le : ∀ {l : List Transaction} {u : Transaction},
    pickMaxSeq l = some u → ∀ t ∈ l, t.seq ≤ u.seq := by
  intro l
  induction l with
  | nil => intro u h t ht; cases ht
  | cons t ts ih =>
    intro u h x hx
    simp only [pickMaxSeq] at h
    cases hp : pickMaxSeq ts with
    | none =>
      have hts : ts = [] := pickMaxSeq_eq_none hp
      simp only [hp] at h
      cases h
      subst hts
      rcases List.mem_cons.mp hx with rfl | hx2
      · exact Nat.le_refl _
      · cases hx2
    | some v =>
      simp only [hp] at h
      by_cases hc : v.seq < t.seq
      · rw [if_pos hc] at h
        cases h
        rcases List.mem_cons.mp hx with rfl | hx2
        · exact Nat.le_refl _
        · exact Nat.le_of_lt (Nat.lt_of_le_of_lt (ih hp x hx2) hc)
      · rw [if_neg hc] at h
        cases h
        rcases List.mem_cons.mp hx with rfl | hx2
        · exact Nat.le_of_not_lt hc
        · exact ih hp x hx2

/-- pickMaxSeq yields a value on every nonempty list. -/
theorem pickMaxSeq_of_ne_nil {l : List Transaction} (h : l ≠ []) :
    ∃ u, pickMaxSeq l = some u := by
  cases l with
  | nil => exact absurd rfl h
  | cons t ts =>
    simp only [pickMaxSeq]
    cases hp : pickMaxSeq ts with
    | none => exact ⟨t, rfl⟩
    | some v =>
      by_cases hc : v.seq < t.seq
      · exact ⟨t, by simp [hc]⟩
      · exact ⟨v, by simp [hc]⟩

/-- C3: lastEntryCost is the unit value of the qualifying Entry with the
largest sequence number (so a later-dated qualifying Entry with a lower
sequence number never overrides it, the date playing no role in the
selection), and 0 when no Entry qualifies. -/
theorem lastEntryCost_max_seq (ledger : List Transaction) (sku : List Char) (asOf : Nat) :
    (∀ e ∈ qualifying ledger sku .Entry asOf,
      (∀ t ∈ qualifying ledger sku .Entry asOf, t ≠ e → t.seq < e.seq) →
      lastEntryCost ledger sku asOf = e.unitValue) ∧
    (qualifying ledger sku .Entry asOf = [] → lastEntryCost ledger sku asOf = 0) := by
  constructor
  · intro e he hmax
    have hne : qualifying ledger sku .Entry asOf ≠ [] := by
      intro h; rw [h] at he; cases he
    obtain ⟨u, hu⟩ := pickMaxSeq_of_ne_nil hne
    have hle2 : e.seq ≤ u.seq := pickMaxSeq_le hu e he
    by_cases hue : u = e
    · unfold lastEntryCost
      rw [hu, hue]
    · exact absurd (Nat.lt_of_le_of_lt hle2 (hmax u (pickMaxSeq_mem hu) hue))
        (Nat.lt_irrefl e.seq)
  · intro h
    unfold lastEntryCost
    rw [h]
    rfl

/-- Fixture: the qualifying Entry with the largest sequence number 5,
dated earlier than the competing entry. -/
def entrySeqHi : Transaction := ⟨5, ("A1").toList, 1, 7, 110, .Entry, some 1, some (("N1").toList)⟩

/-- Fixture: a later-dated qualifying Entry with the lower sequence
number 3, which must not override entrySeqHi. -/
def entrySeqLate : Transaction := ⟨3, ("A1").toList, 1, 9, 120, .Entry, some 1, some (("N2").toList)⟩

/-- Fixture ledger of the sequence-number tie-break scenario. -/
def ledgerSeq : List Transaction := [entrySeqHi, entrySeqLate]

/-- Witness for C3: with entries of sequence numbers 5 (dated 110, unit
value 7) and 3 (dated 120, unit value 9), the last entry cost as of 200 is
7, the unit value of the highest sequence number, not of the latest date;
and an item with no qualifying entry reports 0. -/
theorem lastEntryCost_max_seq_witness :
    lastEntryCost ledgerSeq (("A1").toList) 200 = 7 ∧
    lastEntryCost ledgerSeq (("Z9").toList) 200 = 0 := by
  have hqual : qualifying ledgerSeq (("A1").toList) .Entry 200 = [entrySeqHi, entrySeqLate] := by
    simp +decide [qualifying, ledgerSeq, entrySeqHi, entrySeqLate, List.filter]
  have hz : qualifying ledgerSeq (("Z9").toList) .Entry 200 = [] := by
    simp +decide [qualifying, ledgerSeq, entrySeqHi, entrySeqLate, List.filter]
  constructor
  · refine (lastEntryCost_max_seq ledgerSeq (("A1").toList) 200).1 entrySeqHi ?_ ?_
    · rw [hqual]; exact List.mem_cons_self _ _
    · intro t ht hne
      rw [hqual] at ht
      rcases List.mem_cons.mp ht with rfl | ht2
      · exact absurd rfl hne
      · rcases List.mem_cons.mp ht2 with rfl | ht3
        · norm_num [entrySeqLate, entrySeqHi]
        · cases ht3
  · exact (lastEntryCost_max_seq ledgerSeq (("Z9").toList) 200).2 hz

/-- C6: a supplied as-of date that does not validate as a calendar date is
rejected with the descriptive input-validation error before any store
access: the rejection is identical whatever the registry and the ledger
hold, so no aggregation and no partial computation can have occurred. -/
theorem malformed_asOfDate_rejected (s : List Char) (now : Nat) (f : Filters)
    (reg reg2 : List Item) (ledger ledger2 : List Transaction)
    (hs : safeFormatBrazilianDateToISO s = none) :
    queryStocks (some s) now f reg ledger = Except.error invalidDateMsg ∧
    queryStocks (some s) now f reg ledger = queryStocks (some s) now f reg2 ledger2 := by
  constructor <;> simp [queryStocks, hs]

/-- Witness for C6 at the malformed date 2023-02-30, a day that does not
exist in the calendar: the query is rejected with the validation error and
the answer ignores the stores entirely. -/
theorem malformed_asOfDate_rejected_witness :
    safeFormatBrazilianDateToISO (("2023-02-30").toList) = none ∧
    queryStocks (some (("2023-02-30").toList)) 20230301 fNone regW ledgerW =
      Except.error invalidDateMsg ∧
    queryStocks (some (("2023-02-30").toList)) 20230301 fNone regW ledgerW =
      queryStocks (some (("2023-02-30").toList)) 20230301 fNone [] [] := by
  have hs : safeFormatBrazilianDateToISO (("2023-02-30").toList) = none := by decide
  have h := malformed_asOfDate_rejected (("2023-02-30").toList) 20230301 fNone regW [] ledgerW [] hs
  exact ⟨hs, h.1, h.2⟩

/-- C8 counterexample: getAverageCost does not propagate store read
failures: when both the dedicated average-cost endpoint and the stock-cost
service fail, it substitutes the default number 0 for the result of the
failed reads (its return type is not even fallible), so not every Ledger
Store read failure reaches the caller as a failure. -/
theorem getAverageCost_swallows_failure :
    getAverageCost (Except.error ()) (Except.error ()) = 0 := rfl

/-- C8 amended: StockService.getStockItems propagates a store read
failure to the caller unchanged, with no internal retry and no default
substituted; getAverageCost, however, falls back from a failed
average-cost endpoint to the stock-cost service and, when that read also
fails or returns no rows, substitutes the number 0 instead of a
failure. -/
theorem store_failure_propagation_amended :
    (∀ (E R : Type) (e : E), StockService.getStockItems (Except.error e : Except E R) = Except.error e) ∧
    (∀ (E R : Type) (r : R), StockService.getStockItems (Except.ok r : Except E R) = Except.ok r) ∧
    (∀ rows : List StockCostRow, getAverageCost (Except.error ()) (Except.ok rows) =
      (match rows with | [] => 0 | r :: _ => r.unitCost)) ∧
    getAverageCost (Except.error ()) (Except.error ()) = 0 := by
  refine ⟨fun E R e => rfl, fun E R r => rfl, fun rows => ?_, rfl⟩
  cases rows <;> rfl

/-- C9: a row survives applyFilters exactly when, for every filter entry,
the entry's value is empty or occurs case-insensitively as a contiguous
substring of the string value of the row's corresponding field. -/
theorem applyFilters_substring_containment (filters : List (List Char × List Char))
    (data : List (List (List Char × List Char))) (row : List (List Char × List Char)) :
    row ∈ applyFilters filters data ↔
      row ∈ data ∧
      ∀ p ∈ filters, p.2 = [] ∨ lowerStr p.2 <:+: lowerStr (getField row p.1) := by
  simp [applyFilters, strIncludes, List.mem_filter, List.all_eq_true, List.isEmpty_iff]

/-- Fixture: a table row with one field named sku valued ABC-1. -/
def rowFix : List (List Char × List Char) := [(("sku").toList, ("ABC-1").toList)]

/-- Fixture: a filter asking for the substring bc on the sku field. -/
def filtersFix : List (List Char × List Char) := [(("sku").toList, ("bc").toList)]

/-- Witness for C9 at a concrete row and filter set. -/
theorem applyFilters_substring_containment_witness :
    rowFix ∈ applyFilters filtersFix [rowFix] ↔
      rowFix ∈ [rowFix] ∧
      ∀ p ∈ filtersFix, p.2 = [] ∨ lowerStr p.2 <:+: lowerStr (getField rowFix p.1) :=
  applyFilters_substring_containment filtersFix [rowFix] rowFix

/-- Both orientations of the disequality of a digit character with each
date separator, for rewriting. -/
theorem digit_ne_sep {c : Char} (h : c.isDigit = true) :
    c ≠ '-' ∧ ('-') ≠ c ∧ c ≠ '/' ∧ ('/') ≠ c := by
  refine ⟨?_, ?_, ?_, ?_⟩ <;> intro he
  · subst he; exact absurd h (by decide)
  · rw [← he] at h; exact absurd h (by decide)
  · subst he; exact absurd h (by decide)
  · rw [← he] at h; exact absurd h (by decide)

/-- C10: the date format conversions round-trip on zero-padded date
strings: converting a YYYY-MM-DD digit string to Brazilian form and back
yields the original, and converting a DD/MM/YYYY digit string to ISO form
and back yields the original. -/
theorem date_format_roundtrip (y1 y2 y3 y4 m1 m2 d1 d2 : Char)
    (hy1 : y1.isDigit = true) (hy2 : y2.isDigit = true) (hy3 : y3.isDigit = true)
    (hy4 : y4.isDigit = true) (hm1 : m1.isDigit = true) (hm2 : m2.isDigit = true)
    (hd1 : d1.isDigit = true) (hd2 : d2.isDigit = true) :
    formatBrazilianDateToISO (formatDateToBrazilian [y1, y2, y3, y4, '-', m1, m2, '-', d1, d2]) =
      [y1, y2, y3, y4, '-', m1, m2, '-', d1, d2] ∧
    formatDateToBrazilian (formatBrazilianDateToISO [d1, d2, '/', m1, m2, '/', y1, y2, y3, y4]) =
      [d1, d2, '/', m1, m2, '/', y1, y2, y3, y4] := by
  obtain ⟨a1, b1, c1, e1⟩ := digit_ne_sep hy1
  obtain ⟨a2, b2, c2, e2⟩ := digit_ne_sep hy2
  obtain ⟨a3, b3, c3, e3⟩ := digit_ne_sep hy3
  obtain ⟨a4, b4, c4, e4⟩ := digit_ne_sep hy4
  obtain ⟨a5, b5, c5, e5⟩ := digit_ne_sep hm1
  obtain ⟨a6, b6, c6, e6⟩ := digit_ne_sep hm2
  obtain ⟨a7, b7, c7, e7⟩ := digit_ne_sep hd1
  obtain ⟨a8, b8, c8, e8⟩ := digit_ne_sep hd2
  constructor <;>
    simp [formatDateToBrazilian, formatBrazilianDateToISO, strHasChar, splitOnChar, padStart2,
      a1, b1, c1, e1, a2, b2, c2, e2, a3, b3, c3, e3, a4, b4, c4, e4,
      a5, b5, c5, e5, a6, b6, c6, e6, a7, b7, c7, e7, a8, b8, c8, e8]

/-- Witness for C10 at the concrete date 2023-07-04: both conversions
round-trip. -/
theorem date_format_roundtrip_witness :
    formatBrazilianDateToISO (formatDateToBrazilian (("2023-07-04").toList)) =
      ("2023-07-04").toList ∧
    formatDateToBrazilian (formatBrazilianDateToISO (("04/07/2023").toList)) =
      ("04/07/2023").toList := by
  have h := date_format_roundtrip '2' '0' '2' '3' '0' '7' '0' '4'
    (by decide) (by decide) (by decide) (by decide)
    (by decide) (by decide) (by decide) (by decide)
  exact ⟨h.1, h.2⟩

end StockControl
